import Mathlib

/-!
Verification of the gravity-api command-line client (main.go) against its
natural-language specification.

The Go program is shallowly embedded: Go strings become Lean `String`,
Go slices become `List`, fallible operations return `Except`/`Option`,
and external effects (file system, subprocess execution, home-directory
and temporary-directory resolution, YAML serialisation) are parameters
gathered in an `Env` record, so every command handler becomes a pure
executable function of its flags and the environment.
-/

/-! ## JSON values as seen by the parameter flattener

`getQueryStringFromJSONFile` (main.go:643) unmarshals the parameter file
into `map[string]*json.RawMessage` and classifies each raw value by
attempting to unmarshal it into `int`, `float64`, `bool`, `string` in
that order.  We embed each raw message by its decode behaviour:

* `jInt i` — a JSON number that Go decodes into `int` (a decimal integer
  literal); `encoding/json` parses the literal with `strconv.ParseInt`,
  so fractional or exponent forms are excluded.
* `jFloat text` — any other JSON number; it fails the `int` decode and
  succeeds as `float64`.  The constructor carries the `fmt.Sprintf`
  rendering with format `%f` that line 678 would emit, since exact
  binary floating point is outside the embedding.
* `jBool b`, `jString s` — JSON booleans and strings.
* `jArray`, `jObject` — composite values; all four scalar decodes fail
  on them, so their payload is never inspected by the flattener and is
  not carried.
* `jNull` — a JSON `null`.  `encoding/json` stores `null` into the
  pointer-typed map element `*json.RawMessage` as a `nil` pointer
  (decoding `null` into a settable pointer zeroes it), so the later
  dereference `*jsonObj` in `getIntFromJSON` (main.go:700) panics.
-/

inductive JSONValue where
  | jNull
  | jBool (b : Bool)
  | jInt (i : Int)
  | jFloat (text : String)
  | jString (s : String)
  | jArray
  | jObject
deriving Repr, DecidableEq

/-- Embeds `getIntFromJSON` (main.go:698): `json.Unmarshal` into `int`
succeeds exactly on decimal-integer number literals. -/
def getIntFromJSON : JSONValue → Option Int
  | .jInt i => some i
  | _ => none

/-- Embeds `getFloatFromJSON` (main.go:704): `json.Unmarshal` into
`float64` succeeds on every JSON number.  The result is carried as its
`%f` rendering (six fractional digits), which is what line 678 prints;
for an integral number `i` that rendering is `i` followed by
`.000000`. -/
def getFloatFromJSON : JSONValue → Option String
  | .jInt i => some (toString i ++ ".000000")
  | .jFloat t => some t
  | _ => none

/-- Embeds `getBoolFromJSON` (main.go:710). -/
def getBoolFromJSON : JSONValue → Option Bool
  | .jBool b => some b
  | _ => none

/-- Embeds `getStringFromJSON` (main.go:716). -/
def getStringFromJSON : JSONValue → Option String
  | .jString s => some s
  | _ => none

/-- The body of the classification chain of `getQueryStringFromJSONFile`
(main.go:662–682) for one key/value entry whose raw message is not a
`nil` pointer: try `int`, then `float64`, then `bool`, then `string`;
emit `key=value` on the first success (booleans spelt `true`/`false`,
integers via `%d`, floats via `%f`), and skip the key (`none`) when all
four decodes fail. -/
def classifyEntry (k : String) (v : JSONValue) : Option String :=
  match getIntFromJSON v with
  | some i => some (k ++ "=" ++ toString i)
  | none =>
    match getFloatFromJSON v with
    | some t => some (k ++ "=" ++ t)
    | none =>
      match getBoolFromJSON v with
      | some b => some (k ++ "=" ++ (if b then "true" else "false"))
      | none =>
        match getStringFromJSON v with
        | some s => some (k ++ "=" ++ s)
        | none => none

/-- The `for k, v := range objmap` loop of `getQueryStringFromJSONFile`
(main.go:660–683) over the entries of the unmarshalled object.  A
`jNull` entry is a `nil` `*json.RawMessage`, and the argument `*jsonObj`
passed to `json.Unmarshal` at main.go:700 dereferences it: the program
panics, which we embed as `none`.  Otherwise the emitted pairs are
accumulated in iteration order (Go map order is arbitrary; the embedding
fixes the order of the entry list). -/
def flattenEntries : List (String × JSONValue) → Option (List String)
  | [] => some []
  | (k, v) :: rest =>
    match v with
    | .jNull => none
    | _ =>
      match flattenEntries rest with
      | none => none
      | some arr =>
        match classifyEntry k v with
        | some e => some (e :: arr)
        | none => some arr

/-- The `strings.Builder` loop of `getQueryStringFromJSONFile`
(main.go:685–693): the first emitted pair is prefixed with `?`, each
later pair with `&`. -/
def joinTail : List String → String
  | [] => ""
  | v :: rest => "&" ++ v ++ joinTail rest

/-- Joins the emitted pairs as main.go:687–693 does: empty list gives
the empty string, otherwise `?first` then `&`-separated rest. -/
def joinQuery : List String → String
  | [] => ""
  | v :: rest => "?" ++ v ++ joinTail rest

/-- Embeds `getQueryStringFromJSONFile` (main.go:643) after the file has been
read and unmarshalled into an object: flatten the entries and join them.
`none` is the `nil`-pointer-dereference panic raised on a `null`
value. -/
def getQueryStringFromObj (obj : List (String × JSONValue)) : Option String :=
  match flattenEntries obj with
  | none => none
  | some arr => some (joinQuery arr)

/-! ### Claim-side characterisation of the flattener -/

/-- A value is scalar when one of the four decode attempts succeeds:
JSON integers, other numbers, booleans and strings. -/
def isScalar : JSONValue → Bool
  | .jInt _ => true
  | .jFloat _ => true
  | .jBool _ => true
  | .jString _ => true
  | _ => false

/-- The text the flattener emits for a scalar value: `%d` for integers,
the `%f` rendering for other numbers, literal `true`/`false` for
booleans, the string itself for strings (junk `""` otherwise). -/
def renderValue : JSONValue → String
  | .jInt i => toString i
  | .jFloat t => t
  | .jBool b => if b then "true" else "false"
  | .jString s => s
  | _ => ""

/-- The `key=value` pair emitted for a scalar entry. -/
def renderPair (kv : String × JSONValue) : String :=
  kv.1 ++ "=" ++ renderValue kv.2

/-! ### Re-splitting a produced query string

The specification's round-trip property re-splits the query string on
`&` and `=` after dropping the leading `?`.  The splitting is over
characters, so it is defined on the character list of the string. -/

/-- Splits a character list at every occurrence of the separator `c`;
the separator is consumed.  `splitOnChar c []` is `[[]]`, matching the
usual convention that the empty text has one empty field. -/
def splitOnChar (c : Char) : List Char → List (List Char)
  | [] => [[]]
  | x :: xs =>
    match splitOnChar c xs with
    | [] => [[x]]
    | p :: ps => if x = c then [] :: p :: ps else (x :: p) :: ps

/-- Splits a character list at the first occurrence of `c` into the part
before and the part after; when `c` does not occur, the second component
is empty. -/
def breakAtFirst (c : Char) : List Char → List Char × List Char
  | [] => ([], [])
  | x :: xs =>
    if x = c then ([], xs)
    else
      let r := breakAtFirst c xs
      (x :: r.1, r.2)

/-- The re-splitting procedure on the character list: drop the leading
`?`, split the remainder on `&`, and split each piece at its first `=`
into a key/value pair.  The empty text recovers no pairs. -/
def queryRecoverChars : List Char → List (List Char × List Char)
  | [] => []
  | _ :: rest => (splitOnChar '&' rest).map (breakAtFirst '=')

/-- The re-splitting procedure of the round-trip property, on strings. -/
def queryRecover (s : String) : List (List Char × List Char) :=
  queryRecoverChars s.data

/-! ## The command pipelines

`main.go` issues every request through `executeHTTPCommand`
(main.go:503) and every selector evaluation through `executeJqCommand`
(main.go:521).  External effects are collected in an `Env` record so
that each command handler (`getCommand`, `postCommand`, …,
`loginCommand`) becomes a pure function from its flag values and the
environment to the outcome. -/

/-- The stored configuration (main.go:22): a `url` and a `token`. -/
structure Configuration where
  URL : String
  Token : String
deriving Repr, DecidableEq

/-- The errors the program can produce, one constructor per
`errors.New` site (the constructor keeps the Go message's intent), plus
the three abnormal terminations that are not `error` values in Go:
a home-directory resolution failure, a configuration read/parse
failure surfaced as the underlying library error, and the
`nil`-pointer-dereference panic of the flattener. -/
inductive GError where
  | homeDirFailure
  | configLoadFailure
  | notConfigured
  | notAuthenticated
  | conflictingParameters
  | invalidDataJSON
  | invalidFileJSON
  | fileReadFailure
  | unmarshalFailure
  | nilDerefPanic
  | httpExecFailure
  | serialiseFailure
  | loginFailed
  | missingUsername
  | missingPassword
deriving Repr, DecidableEq

/-- The external world of one invocation:

* `tempDir` — `os.TempDir()`;
* `homeDir` — `homedir.Dir()` (main.go:579); `none` is a resolution
  error;
* `storedConfig` — the outcome of `getStoredConfiguration`
  (main.go:552); `none` is a read or YAML-parse failure;
* `readFile` — `ioutil.ReadFile`; `none` is a read error;
* `isJSON` — the oracle for `isJSON` (main.go:606), which asks
  `json.Unmarshal` whether the text is syntactically valid JSON;
* `parseObject` — `json.Unmarshal` into `map[string]*json.RawMessage`
  (main.go:654); `none` is a decode error (for instance a top-level
  array), and a `null` member becomes the `jNull` entry;
* `httpExec` — the `httpstat` subprocess (main.go:41): captured
  standard output, or `none` for a launch failure or non-zero exit;
* `jqBuffer` — the bytes captured from the `jq` subprocess's standard
  output (main.go:529); launch failures leave the buffer empty but are
  never reported, so the buffer is total;
* `marshal` — `yaml.Marshal` (main.go:571); `none` is a serialisation
  error. -/
structure Env where
  tempDir : String
  homeDir : Option String
  storedConfig : Option Configuration
  readFile : String → Option String
  isJSON : String → Bool
  parseObject : String → Option (List (String × JSONValue))
  httpExec : List String → Option String
  jqBuffer : List String → String
  marshal : Configuration → Option String

/-- The constant `configuationFilename` (main.go:45), spelling as in the source. -/
def configuationFilename : String := ".gravity-api.yaml"

/-- The constant `responseTempFilename` (main.go:46). -/
def responseTempFilename : String := "gravity-api-response"

/-- Models `filepath.Join` for one separator-free clean directory and a file
name. -/
def joinPath (dir name : String) : String := dir ++ "/" ++ name

/-- The argument list composed by `executeHTTPCommand` (main.go:503):
redirect the response body to the fixed artifact path, add the bearer
header exactly when the token is non-empty, then the caller's
arguments. -/
def executeHTTPCommandArgs (tempDir token : String) (args : List String) : List String :=
  ["-o", joinPath tempDir responseTempFilename] ++
    (if token ≠ "" then ["-H", "authorization: Bearer " ++ token] else []) ++ args

/-- Embeds `executeHTTPCommand` (main.go:503): compose the arguments, run
`httpstat`, return its captured output, or propagate the execution
failure (returning the empty string alongside it, dropped here). -/
def executeHTTPCommand (env : Env) (token : String) (args : List String) :
    Except GError String :=
  match env.httpExec (executeHTTPCommandArgs env.tempDir token args) with
  | none => .error .httpExecFailure
  | some output => .ok output

/-- Embeds `executeJqCommand` (main.go:521): pipes the response artifact
through `jq` and returns the captured buffer.  The results of
`Start`/`Wait` on both subprocesses are discarded, and the function
ends in `return string(jqBuffer.Bytes()), nil`, so the error component
is always `nil`. -/
def executeJqCommand (env : Env) (args : List String) : String × Option GError :=
  (env.jqBuffer args, none)

/-- Embeds `getConfigPath` (main.go:578): the fixed configuration path under
the home directory. -/
def getConfigPath (env : Env) : Except GError String :=
  match env.homeDir with
  | none => .error .homeDirFailure
  | some home => .ok (joinPath home configuationFilename)

/-- The merge step of `getConfigurationBytes` (main.go:565–570): each
non-empty new value overwrites the stored field, an empty one leaves it
untouched. -/
def mergeConfiguration (url token : String) (config : Configuration) : Configuration :=
  { URL := if url ≠ "" then url else config.URL
    Token := if token ≠ "" then token else config.Token }

/-- Embeds `getConfigurationBytes` (main.go:564): merge, then YAML-serialise. -/
def getConfigurationBytes (env : Env) (url token : String) (config : Configuration) :
    Except GError String :=
  match env.marshal (mergeConfiguration url token config) with
  | none => .error .serialiseFailure
  | some bytes => .ok bytes

/-- The validation tail of `getValidatedConfiguration`
(main.go:596–603): empty URL first, then empty token. -/
def validateConfiguration (config : Configuration) : Except GError Configuration :=
  if config.URL = "" then .error .notConfigured
  else if config.Token = "" then .error .notAuthenticated
  else .ok config

/-- Embeds `getValidatedConfiguration` (main.go:586): resolve the path, load
the stored configuration, then validate it. -/
def getValidatedConfiguration (env : Env) : Except GError Configuration :=
  match getConfigPath env with
  | .error e => .error e
  | .ok _ =>
    match env.storedConfig with
    | none => .error .configLoadFailure
    | some config => validateConfiguration config

/-- Embeds `getJSONFromFile` (main.go:611): read the file, reject non-JSON
content, then strip `\r\n` and `\n`. -/
def getJSONFromFile (env : Env) (path : String) : Except GError String :=
  match env.readFile path with
  | none => .error .fileReadFailure
  | some str =>
    if ¬ env.isJSON str then .error .invalidFileJSON
    else .ok ((str.replace "\r\n" "").replace "\n" "")

/-- Embeds `getData` (main.go:625): inline `--data` wins and must be valid
JSON; otherwise `--file` is read; otherwise the body is empty. -/
def getData (env : Env) (dataFlag fileFlag : String) : Except GError String :=
  if dataFlag ≠ "" then
    if ¬ env.isJSON dataFlag then .error .invalidDataJSON
    else .ok dataFlag
  else if fileFlag ≠ "" then getJSONFromFile env fileFlag
  else .ok ""

/-- Embeds `getQueryStringFromJSONFile` (main.go:643) end to end: read the
file, check JSON syntax, unmarshal into an object, then flatten.  The
flattener's `nil`-pointer panic on a `null` member is surfaced as
`nilDerefPanic` (in Go it is a crash, not a returned error; either way
the command produces no query string and nothing further happens). -/
def getQueryStringFromJSONFile (env : Env) (path : String) : Except GError String :=
  match env.readFile path with
  | none => .error .fileReadFailure
  | some str =>
    if ¬ env.isJSON str then .error .invalidFileJSON
    else
      match env.parseObject str with
      | none => .error .unmarshalFailure
      | some obj =>
        match getQueryStringFromObj obj with
        | none => .error .nilDerefPanic
        | some q => .ok q

/-- Outcome of one command handler: the returned error (`none` on
success) and the lines printed with `fmt.Println` along the way. -/
structure RunResult where
  err : Option GError
  printed : List String
deriving Repr, DecidableEq

/-- Embeds `getCommand` (main.go:308) and `deleteCommand` (main.go:466), which
differ only in the fixed arguments placed before the URL (`[]` for
`get`, `["-X", "DELETE"]` for `delete`): validate the configuration,
resolve the optional query-parameter file, issue the request, print the
captured report, run the selector, print its buffer. -/
def queryCommandRun (pre : List String) (env : Env)
    (resource selector fileFlag : String) : RunResult :=
  match getValidatedConfiguration env with
  | .error e => ⟨some e, []⟩
  | .ok config =>
    let qres : Except GError String :=
      if fileFlag ≠ "" then getQueryStringFromJSONFile env fileFlag else .ok ""
    match qres with
    | .error e => ⟨some e, []⟩
    | .ok queryString =>
      match executeHTTPCommand env config.Token
          (pre ++ [config.URL ++ resource ++ queryString]) with
      | .error e => ⟨some e, []⟩
      | .ok output =>
        match executeJqCommand env [selector] with
        | (_, some e) => ⟨some e, [output]⟩
        | (jqOutput, none) => ⟨none, [output, jqOutput]⟩

/-- Embeds `postCommand` (main.go:343), `putCommand` (main.go:384) and
`patchCommand` (main.go:425), which differ only in the verb:
reject `--data` together with `--file`, resolve the body, validate the
configuration, issue the request with the JSON content-type header,
print the captured report, run the selector, print its buffer. -/
def bodyCommandRun (verb : String) (env : Env)
    (resource selector dataFlag fileFlag : String) : RunResult :=
  if dataFlag ≠ "" ∧ fileFlag ≠ "" then ⟨some .conflictingParameters, []⟩
  else
    match getData env dataFlag fileFlag with
    | .error e => ⟨some e, []⟩
    | .ok json =>
      match getValidatedConfiguration env with
      | .error e => ⟨some e, []⟩
      | .ok config =>
        match executeHTTPCommand env config.Token
            ["-X", verb, "-H", "Content-Type: application/json", "-d", json,
              config.URL ++ resource] with
        | .error e => ⟨some e, []⟩
        | .ok output =>
          match executeJqCommand env [selector] with
          | (_, some e) => ⟨some e, [output]⟩
          | (jqOutput, none) => ⟨none, [output, jqOutput]⟩

/-- The body `loginCommand` (main.go:276–281) sends:
`grant_type=password&username=U&password=P`. -/
def loginBody (username password : String) : String :=
  "grant_type=password&username=" ++ username ++ "&password=" ++ password

/-- Embeds `strings.Contains`: the pattern occurs somewhere inside the text. -/
def goContains (s sub : String) : Prop := sub.data <:+: s.data

instance (s sub : String) : Decidable (goContains s sub) :=
  inferInstanceAs (Decidable (sub.data <:+: s.data))

/-- The token clean-up of `loginCommand` (main.go:296): remove every
`"` and every `\n`. -/
def stripQuotesLineFeeds (s : String) : String :=
  (s.replace "\"" "").replace "\n" ""

/-- Outcome of `loginCommand`: the returned error, the printed lines,
and the configuration-file writes performed (path and bytes). -/
structure LoginResult where
  err : Option GError
  printed : List String
  writes : List (String × String)
deriving Repr, DecidableEq

/-- Embeds `loginCommand` (main.go:260): require both flags, resolve the
configuration path, load the stored configuration (unvalidated), POST
the password grant with an empty token (no bearer header), print the
captured report, fail unless it contains `200 OK`, extract
`.access_token` with the selector facility, strip quotes and line
feeds, serialise the merged configuration and write it. -/
def loginCommandRun (env : Env) (username password : String) : LoginResult :=
  if username = "" then ⟨some .missingUsername, [], []⟩
  else if password = "" then ⟨some .missingPassword, [], []⟩
  else
    match getConfigPath env with
    | .error e => ⟨some e, [], []⟩
    | .ok configPath =>
      match env.storedConfig with
      | none => ⟨some .configLoadFailure, [], []⟩
      | some config =>
        match executeHTTPCommand env ""
            ["-X", "POST", "-d", loginBody username password,
              config.URL ++ "/login"] with
        | .error e => ⟨some e, [], []⟩
        | .ok output =>
          if ¬ goContains output "200 OK" then ⟨some .loginFailed, [output], []⟩
          else
            match executeJqCommand env [".access_token"] with
            | (_, some e) => ⟨some e, [output], []⟩
            | (jqOutput, none) =>
              let token := stripQuotesLineFeeds jqOutput
              match getConfigurationBytes env config.URL token config with
              | .error e => ⟨some e, [output], []⟩
              | .ok bytes =>
                ⟨none, [output,
                  "Configuration file " ++ configPath ++ " has been updated."],
                  [(configPath, bytes)]⟩

/-- A concrete environment for closed evaluations: a configured and
authenticated user, an HTTP facility reporting success, a selector
facility answering `3`, and a JSON oracle that rejects exactly the
malformed text `{`. -/
def sampleEnv : Env where
  tempDir := "/tmp"
  homeDir := some "/home/user"
  storedConfig := some ⟨"https://api.example.com", "abc"⟩
  readFile := fun _ => none
  isJSON := fun s => s != "\x7b"
  parseObject := fun _ => none
  httpExec := fun _ => some "HTTP/1.1 200 OK"
  jqBuffer := fun _ => "3"
  marshal := fun c => some ("url: " ++ c.URL ++ "\ntoken: " ++ c.Token ++ "\n")

/-- Like `sampleEnv`, but with an HTTP facility whose captured report does not
contain `200 OK`. -/
def envLoginFail : Env :=
  { sampleEnv with httpExec := fun _ => some "HTTP/1.1 403 Forbidden" }

/-! ## Helper lemmas -/

/-- On a non-null scalar entry the classification chain emits exactly
the rendered pair; on arrays and objects it skips. -/
theorem classifyEntry_eq (k : String) (v : JSONValue) :
    classifyEntry k v = if isScalar v then some (renderPair (k, v)) else none := by
  cases v <;> simp [classifyEntry, getIntFromJSON, getFloatFromJSON, getBoolFromJSON,
    getStringFromJSON, isScalar, renderPair, renderValue]

/-- On an object free of `null` values, the flattener loop succeeds and
emits, in order, exactly the rendered pairs of the scalar entries. -/
theorem flattenEntries_eq (obj : List (String × JSONValue))
    (h : ∀ kv ∈ obj, kv.2 ≠ JSONValue.jNull) :
    flattenEntries obj =
      some ((obj.filter (fun kv => isScalar kv.2)).map renderPair) := by
  induction obj with
  | nil => rfl
  | cons kv rest ih =>
    obtain ⟨k, v⟩ := kv
    have hv : v ≠ JSONValue.jNull := h (k, v) (List.mem_cons_self _ _)
    have hrest : ∀ kv ∈ rest, kv.2 ≠ JSONValue.jNull :=
      fun kv hkv => h kv (List.mem_cons_of_mem _ hkv)
    have ihr := ih hrest
    cases v <;> simp_all [flattenEntries, classifyEntry_eq, isScalar, List.filter]

theorem splitOnChar_ne_nil (c : Char) (l : List Char) : splitOnChar c l ≠ [] := by
  induction l with
  | nil => simp [splitOnChar]
  | cons x xs ih =>
    simp only [splitOnChar]
    cases h : splitOnChar c xs with
    | nil => simp
    | cons p ps =>
      by_cases hx : x = c <;> simp [hx]

theorem splitOnChar_of_not_mem (c : Char) (l : List Char) (h : c ∉ l) :
    splitOnChar c l = [l] := by
  induction l with
  | nil => rfl
  | cons x xs ih =>
    have hx : x ≠ c := fun hxc => h (hxc ▸ List.mem_cons_self _ _)
    have hxs : c ∉ xs := fun hm => h (List.mem_cons_of_mem _ hm)
    simp [splitOnChar, ih hxs, hx]

theorem splitOnChar_append (c : Char) (a b : List Char) (h : c ∉ a) :
    splitOnChar c (a ++ c :: b) = a :: splitOnChar c b := by
  induction a with
  | nil =>
    simp only [List.nil_append, splitOnChar]
    cases hb : splitOnChar c b with
    | nil => exact absurd hb (splitOnChar_ne_nil c b)
    | cons p ps => simp
  | cons x xs ih =>
    have hx : x ≠ c := fun hxc => h (hxc ▸ List.mem_cons_self _ _)
    have hxs : c ∉ xs := fun hm => h (List.mem_cons_of_mem _ hm)
    simp only [List.cons_append, splitOnChar, List.append_eq, ih hxs]
    simp [hx]

theorem breakAtFirst_append (c : Char) (a b : List Char) (h : c ∉ a) :
    breakAtFirst c (a ++ c :: b) = (a, b) := by
  induction a with
  | nil => simp [breakAtFirst]
  | cons x xs ih =>
    have hx : x ≠ c := fun hxc => h (hxc ▸ List.mem_cons_self _ _)
    have hxs : c ∉ xs := fun hm => h (List.mem_cons_of_mem _ hm)
    simp [breakAtFirst, hx, ih hxs]

theorem renderPair_data (kv : String × JSONValue) :
    (renderPair kv).data = kv.1.data ++ '=' :: (renderValue kv.2).data := by
  simp [renderPair, String.data_append]

theorem joinTail_data (v : String) (rest : List String) :
    (joinTail (v :: rest)).data = '&' :: (v.data ++ (joinTail rest).data) := by
  simp [joinTail, String.data_append]

theorem joinQuery_data (v : String) (rest : List String) :
    (joinQuery (v :: rest)).data = '?' :: (v.data ++ (joinTail rest).data) := by
  simp [joinQuery, String.data_append]

/-- Splitting the `&`-joined tail recovers the pieces when no piece
contains the separator. -/
theorem splitOnChar_joinTail (e : List Char) (pieces : List String)
    (he : '&' ∉ e) (hp : ∀ p ∈ pieces, '&' ∉ p.data) :
    splitOnChar '&' (e ++ (joinTail pieces).data) = e :: pieces.map String.data := by
  induction pieces generalizing e with
  | nil =>
    have : (joinTail []).data = [] := rfl
    rw [this, List.append_nil, splitOnChar_of_not_mem _ _ he, List.map_nil]
  | cons v rest ih =>
    rw [joinTail_data, splitOnChar_append _ _ _ he]
    have hv : '&' ∉ v.data := hp v (List.mem_cons_self _ _)
    have hrest : ∀ p ∈ rest, '&' ∉ p.data :=
      fun p hm => hp p (List.mem_cons_of_mem _ hm)
    rw [ih v.data hv hrest, List.map_cons]

/-- Every pair the flattener loop emits contains `=` and in particular
is non-empty. -/
theorem flattenEntries_entry_ne_nil (obj : List (String × JSONValue)) :
    ∀ arr, flattenEntries obj = some arr → ∀ e ∈ arr, e.data ≠ [] := by
  induction obj with
  | nil =>
    intro arr h e he
    simp [flattenEntries] at h
    subst h
    simp at he
  | cons kv rest ih =>
    intro arr h e he
    obtain ⟨k, v⟩ := kv
    cases hr : flattenEntries rest with
    | none => cases v <;> simp [flattenEntries, hr] at h
    | some arr2 =>
      have ihe : ∀ x ∈ arr2, x.data ≠ [] := ih arr2 hr
      cases v with
      | jNull => simp [flattenEntries] at h
      | jArray =>
        simp [flattenEntries, hr, classifyEntry_eq, isScalar] at h
        subst h
        exact ihe e he
      | jObject =>
        simp [flattenEntries, hr, classifyEntry_eq, isScalar] at h
        subst h
        exact ihe e he
      | jInt i =>
        simp [flattenEntries, hr, classifyEntry_eq, isScalar, renderPair, renderValue] at h
        subst h
        rcases List.mem_cons.mp he with rfl | hmem
        · simp [String.data_append]
        · exact ihe e hmem
      | jFloat t =>
        simp [flattenEntries, hr, classifyEntry_eq, isScalar, renderPair, renderValue] at h
        subst h
        rcases List.mem_cons.mp he with rfl | hmem
        · simp [String.data_append]
        · exact ihe e hmem
      | jBool b =>
        simp [flattenEntries, hr, classifyEntry_eq, isScalar, renderPair, renderValue] at h
        subst h
        rcases List.mem_cons.mp he with rfl | hmem
        · simp [String.data_append]
        · exact ihe e hmem
      | jString s =>
        simp [flattenEntries, hr, classifyEntry_eq, isScalar, renderPair, renderValue] at h
        subst h
        rcases List.mem_cons.mp he with rfl | hmem
        · simp [String.data_append]
        · exact ihe e hmem

/-- A produced query string is never the bare text `?`. -/
theorem getQueryString_ne_mark (obj : List (String × JSONValue)) (s : String)
    (h : getQueryStringFromObj obj = some s) : s ≠ "?" := by
  unfold getQueryStringFromObj at h
  cases harr : flattenEntries obj with
  | none => rw [harr] at h; exact absurd h (by simp)
  | some arr =>
    rw [harr] at h
    simp only [Option.some.injEq] at h
    cases arr with
    | nil =>
      subst h
      decide
    | cons v rest =>
      subst h
      intro hs
      have hd := congrArg String.data hs
      rw [joinQuery_data] at hd
      have hmark : ("?" : String).data = ['?'] := rfl
      rw [hmark] at hd
      have htail : v.data ++ (joinTail rest).data = [] := by
        injection hd
      have hv : v.data = [] := (List.append_eq_nil.mp htail).1
      exact flattenEntries_entry_ne_nil obj (v :: rest) harr v
        (List.mem_cons_self _ _) hv

/-! ## The claims -/

/-- Claim C1, counterexample.  The claim says a key whose value is JSON
`null` is silently skipped and no error is raised.  In the code a
`null` member of the unmarshalled `map[string]*json.RawMessage` is a
`nil` pointer, and `getIntFromJSON` dereferences it (main.go:700), so
the flattening crashes (`none` in the embedding) instead of returning a
query string that omits the key. -/
theorem claimC1_counterexample :
    getQueryStringFromObj [("a", JSONValue.jNull)] = none := by decide

/-- Claim C1, amended: for every key whose value is a JSON object or
array, the key is silently skipped — no `key=value` pair for it appears
and no error is raised — and only keys with scalar (integer,
floating-point, boolean, string) values are emitted; a key whose value
is `null`, however, makes the flattener dereference a `nil`
`*json.RawMessage` and crash.  On a `null`-free object the flattening
succeeds and produces exactly the rendered pairs of the scalar
entries. -/
theorem claimC1_amended (obj : List (String × JSONValue))
    (h : ∀ kv ∈ obj, kv.2 ≠ JSONValue.jNull) :
    getQueryStringFromObj obj =
      some (joinQuery ((obj.filter (fun kv => isScalar kv.2)).map renderPair)) := by
  simp [getQueryStringFromObj, flattenEntries_eq obj h]

/-- Witness for `claimC1_amended` on a four-entry object mixing
scalars with an object and an array member: the two scalar keys are
emitted, the other two are skipped, and no error occurs. -/
theorem claimC1_witness :
    (∀ kv ∈ ([("a", JSONValue.jInt 3), ("b", JSONValue.jObject),
        ("c", JSONValue.jString "x"), ("d", JSONValue.jArray)] :
        List (String × JSONValue)), kv.2 ≠ JSONValue.jNull) ∧
    getQueryStringFromObj [("a", JSONValue.jInt 3), ("b", JSONValue.jObject),
        ("c", JSONValue.jString "x"), ("d", JSONValue.jArray)] =
      some (joinQuery (([("a", JSONValue.jInt 3), ("b", JSONValue.jObject),
        ("c", JSONValue.jString "x"), ("d", JSONValue.jArray)].filter
          (fun kv => isScalar kv.2)).map renderPair)) ∧
    getQueryStringFromObj [("a", JSONValue.jInt 3), ("b", JSONValue.jObject),
        ("c", JSONValue.jString "x"), ("d", JSONValue.jArray)] = some "?a=3&c=x" :=
  ⟨by decide, claimC1_amended _ (by decide), by decide⟩

/-- Claim C5: configuration validation (main.go:596–603) returns
`NotConfigured` exactly when the stored URL is empty (whatever the
token), `NotAuthenticated` exactly when the URL is non-empty and the
token is empty, and succeeds (returning the configuration unchanged)
exactly when both are non-empty — so the URL check takes precedence
over the token check. -/
theorem claimC5 (config : Configuration) :
    (validateConfiguration config = Except.error GError.notConfigured ↔
      config.URL = "") ∧
    (validateConfiguration config = Except.error GError.notAuthenticated ↔
      (config.URL ≠ "" ∧ config.Token = "")) ∧
    (validateConfiguration config = Except.ok config ↔
      (config.URL ≠ "" ∧ config.Token ≠ "")) := by
  unfold validateConfiguration
  split_ifs with h1 h2 <;> simp_all

/-- Witness for `claimC5` at the three configurations of the
specification's scenario. -/
theorem claimC5_witness :
    validateConfiguration ⟨"", ""⟩ = Except.error GError.notConfigured ∧
    validateConfiguration ⟨"x", ""⟩ = Except.error GError.notAuthenticated ∧
    validateConfiguration ⟨"x", "y"⟩ = Except.ok ⟨"x", "y"⟩ :=
  ⟨(claimC5 ⟨"", ""⟩).1.mpr rfl,
   (claimC5 ⟨"x", ""⟩).2.1.mpr (by decide),
   (claimC5 ⟨"x", "y"⟩).2.2.mpr (by decide)⟩

/-- Claim C6: the merge step of `getConfigurationBytes`
(main.go:565–570) updates each field exactly when the corresponding new
value is non-empty: empty/empty leaves the configuration unchanged, a
new URL alone changes only the URL, a new token alone changes only the
token, and both non-empty values change both fields. -/
theorem claimC6 (cfg : Configuration) (newURL newToken : String)
    (hu : newURL ≠ "") (ht : newToken ≠ "") :
    mergeConfiguration "" "" cfg = cfg ∧
    mergeConfiguration newURL "" cfg = ⟨newURL, cfg.Token⟩ ∧
    mergeConfiguration "" newToken cfg = ⟨cfg.URL, newToken⟩ ∧
    mergeConfiguration newURL newToken cfg = ⟨newURL, newToken⟩ := by
  cases cfg
  simp [mergeConfiguration, hu, ht]

/-- Witness for `claimC6` on the concrete configuration
`{url: u1, token: t1}` and new values `u2`, `t2`. -/
theorem claimC6_witness :
    ("u2" : String) ≠ "" ∧ ("t2" : String) ≠ "" ∧
    (mergeConfiguration "" "" ⟨"u1", "t1"⟩ = ⟨"u1", "t1"⟩ ∧
      mergeConfiguration "u2" "" ⟨"u1", "t1"⟩ = ⟨"u2", "t1"⟩ ∧
      mergeConfiguration "" "t2" ⟨"u1", "t1"⟩ = ⟨"u1", "t2"⟩ ∧
      mergeConfiguration "u2" "t2" ⟨"u1", "t1"⟩ = ⟨"u2", "t2"⟩) :=
  ⟨by decide, by decide, claimC6 ⟨"u1", "t1"⟩ "u2" "t2" (by decide) (by decide)⟩

/-- Claim C7: the classification chain tries integer, then
floating-point, then boolean, then string — the float decode also
succeeds on an integral number, so the priority is what makes the `%d`
form win; booleans are emitted with the literal spellings
`true`/`false` and the other scalars in the engine's default text form
as `key=value` pairs; pairs are joined with `&` and the first is
prefixed by `?`; with zero pairs the result is the empty string, and a
produced query string is never the bare `?`. -/
theorem claimC7 :
    (∀ k i, classifyEntry k (JSONValue.jInt i) = some (k ++ "=" ++ toString i) ∧
      getFloatFromJSON (JSONValue.jInt i) = some (toString i ++ ".000000")) ∧
    (∀ k t, classifyEntry k (JSONValue.jFloat t) = some (k ++ "=" ++ t)) ∧
    (∀ k, classifyEntry k (JSONValue.jBool true) = some (k ++ "=" ++ "true") ∧
      classifyEntry k (JSONValue.jBool false) = some (k ++ "=" ++ "false")) ∧
    (∀ k s, classifyEntry k (JSONValue.jString s) = some (k ++ "=" ++ s)) ∧
    joinQuery [] = "" ∧
    (∀ v rest, joinQuery (v :: rest) = "?" ++ v ++ joinTail rest) ∧
    (∀ v rest, joinTail (v :: rest) = "&" ++ v ++ joinTail rest) ∧
    (∀ obj s, getQueryStringFromObj obj = some s → s ≠ "?") := by
  refine ⟨?_, ?_, ?_, ?_, rfl, fun v rest => rfl, fun v rest => rfl, ?_⟩
  · intro k i
    exact ⟨rfl, rfl⟩
  · intro k t
    rfl
  · intro k
    exact ⟨rfl, rfl⟩
  · intro k s
    rfl
  · exact getQueryString_ne_mark

/-- Witness for `claimC7`: the implication conjunct applied to the
one-entry object `{n: 7}`, whose query string `?n=7` is not `?`. -/
theorem claimC7_witness :
    getQueryStringFromObj [("n", JSONValue.jInt 7)] = some "?n=7" ∧
    ("?n=7" : String) ≠ "?" :=
  ⟨by decide,
   claimC7.2.2.2.2.2.2.2 [("n", JSONValue.jInt 7)] "?n=7" (by decide)⟩

/-- Claim C8, counterexample.  For the all-scalar object
`{a: "x&y"}` the produced query string is `?a=x&y`; dropping the `?`
and re-splitting on `&` and `=` yields the pairs `(a, x)` and
`(y, "")`, not the original pair `(a, x&y)`, so the round trip fails
when a value contains the separator characters. -/
theorem claimC8_counterexample :
    isScalar (JSONValue.jString "x&y") = true ∧
    getQueryStringFromObj [("a", JSONValue.jString "x&y")] = some "?a=x&y" ∧
    queryRecover "?a=x&y" = [("a".data, "x".data), ("y".data, [])] := by
  refine ⟨by decide, by decide, by decide⟩

/-- Claim C8, amended: for every JSON object whose values are all
scalars, provided no key and no rendered value contains `&` and no key
contains `=`, flattening and then re-splitting the produced query
string on `&` and at the first `=` of each piece (after dropping the
leading `?`) recovers exactly the original keys with their rendered
values (so modulo JSON number formatting); the empty object flattens to
the empty string, which recovers the empty set of pairs. -/
theorem claimC8_amended (obj : List (String × JSONValue))
    (hs : ∀ kv ∈ obj, isScalar kv.2 = true)
    (hk : ∀ kv ∈ obj, '&' ∉ kv.1.data ∧ '=' ∉ kv.1.data)
    (hv : ∀ kv ∈ obj, '&' ∉ (renderValue kv.2).data) :
    getQueryStringFromObj obj = some (joinQuery (obj.map renderPair)) ∧
    queryRecover (joinQuery (obj.map renderPair)) =
      obj.map (fun kv => (kv.1.data, (renderValue kv.2).data)) := by
  have hnull : ∀ kv ∈ obj, kv.2 ≠ JSONValue.jNull := by
    intro kv hkv heq
    have hsc := hs kv hkv
    rw [heq] at hsc
    simp [isScalar] at hsc
  have hfilter : obj.filter (fun kv => isScalar kv.2) = obj :=
    List.filter_eq_self.mpr hs
  have hAmpPair : ∀ kv ∈ obj, '&' ∉ (renderPair kv).data := by
    intro kv hkv
    rw [renderPair_data]
    simp only [List.mem_append, List.mem_cons, not_or]
    exact ⟨(hk kv hkv).1, by decide, hv kv hkv⟩
  constructor
  · simp [getQueryStringFromObj, flattenEntries_eq obj hnull, hfilter]
  · cases obj with
    | nil => rfl
    | cons kv rest =>
      rw [List.map_cons, queryRecover]
      rw [joinQuery_data]
      simp only [queryRecoverChars]
      have he : '&' ∉ (renderPair kv).data := hAmpPair kv (List.mem_cons_self _ _)
      have hps : ∀ p ∈ rest.map renderPair, '&' ∉ p.data := by
        intro p hp
        rcases List.mem_map.mp hp with ⟨kv2, hkv2, rfl⟩
        exact hAmpPair kv2 (List.mem_cons_of_mem _ hkv2)
      rw [splitOnChar_joinTail _ _ he hps, List.map_cons, List.map_map]
      have hhead : breakAtFirst '=' (renderPair kv).data =
          (kv.1.data, (renderValue kv.2).data) := by
        rw [renderPair_data]
        exact breakAtFirst_append _ _ _ (hk kv (List.mem_cons_self _ _)).2
      rw [hhead, List.map_cons]
      congr 1
      rw [List.map_map]
      apply List.map_congr_left
      intro kv2 hkv2
      simp only [Function.comp_apply]
      rw [renderPair_data]
      exact breakAtFirst_append _ _ _ (hk kv2 (List.mem_cons_of_mem _ hkv2)).2

/-- Witness for `claimC8_amended` on the two-entry object
`{a: 3, b: "x"}`: the query string is `?a=3&b=x` and re-splitting it
recovers the pairs `(a, 3)` and `(b, x)`. -/
theorem claimC8_witness :
    (∀ kv ∈ ([("a", JSONValue.jInt 3), ("b", JSONValue.jString "x")] :
        List (String × JSONValue)), isScalar kv.2 = true) ∧
    joinQuery ([("a", JSONValue.jInt 3), ("b", JSONValue.jString "x")].map
      renderPair) = "?a=3&b=x" ∧
    (getQueryStringFromObj [("a", JSONValue.jInt 3), ("b", JSONValue.jString "x")] =
        some (joinQuery ([("a", JSONValue.jInt 3),
          ("b", JSONValue.jString "x")].map renderPair)) ∧
      queryRecover (joinQuery ([("a", JSONValue.jInt 3),
          ("b", JSONValue.jString "x")].map renderPair)) =
        [("a", JSONValue.jInt 3), ("b", JSONValue.jString "x")].map
          (fun kv => (kv.1.data, (renderValue kv.2).data))) :=
  ⟨by decide, by decide,
   claimC8_amended [("a", JSONValue.jInt 3), ("b", JSONValue.jString "x")]
     (by decide) (by decide) (by decide)⟩

/-- The bearer header starts with the letter `a`, so it differs from
any string whose first character is not `a` (the flag literals and the
content-type header). -/
theorem authHeader_ne (t : String) (s : String)
    (hs : s.data.head? ≠ some 'a') : "authorization: Bearer " ++ t ≠ s := by
  intro h
  apply hs
  rw [← h]
  rfl

/-- Claim C2, counterexample.  The claim asserts that a composed
invocation contains the `Content-Type: application/json` header if and
only if a request body is present.  The login invocation
(main.go:276–282), composed through the same `executeHTTPCommand` with
an empty token, carries a request body (`-d grant_type=...`) but its
argument list contains no `Content-Type` header (the header occurs zero
times), falsifying the only-if direction. -/
theorem claimC2_counterexample :
    executeHTTPCommandArgs "/tmp" "" ["-X", "POST", "-d", loginBody "u" "p",
        "https://api.example.com" ++ "/login"] =
      ["-o", "/tmp/gravity-api-response", "-X", "POST", "-d",
        "grant_type=password&username=u&password=p",
        "https://api.example.com/login"] ∧
    "-d" ∈ executeHTTPCommandArgs "/tmp" "" ["-X", "POST", "-d", loginBody "u" "p",
        "https://api.example.com" ++ "/login"] ∧
    (executeHTTPCommandArgs "/tmp" "" ["-X", "POST", "-d", loginBody "u" "p",
        "https://api.example.com" ++ "/login"]).count
      "Content-Type: application/json" = 0 := by
  refine ⟨by decide, by decide, by decide⟩

/-- Claim C2, amended: every composed HTTP invocation — the
query-style (`get`), `delete`, JSON-body (`post`/`put`/`patch`) and
login shapes — redirects output to the fixed response-artifact path
`tempdir/gravity-api-response`; the header
`authorization: Bearer token` is present if and only if the token is
non-empty, and the login invocation, composed with an empty token,
carries no header arguments at all; the `Content-Type:
application/json` header tracks the JSON-body commands rather than
body presence — present in the `post`/`put`/`patch` invocation, absent
from the `get` and `delete` invocations, and absent from the login
invocation even though that one carries a URL-encoded body; and the
target URL — the final argument — is the concatenation of the base
URL, the resource path and the query string (base URL and the fixed
`/login` path for login).  The hypotheses only rule out degenerate
inputs whose text coincides with one of the fixed header strings. -/
theorem claimC2_amended (tempDir baseURL resource query body lbody verb token : String)
    (hp1 : joinPath tempDir responseTempFilename ≠ "authorization: Bearer " ++ token)
    (hp2 : joinPath tempDir responseTempFilename ≠ "Content-Type: application/json")
    (h1 : baseURL ++ resource ++ query ≠ "authorization: Bearer " ++ token)
    (h2 : baseURL ++ resource ++ query ≠ "Content-Type: application/json")
    (h3 : body ≠ "authorization: Bearer " ++ token)
    (h4 : baseURL ++ resource ≠ "authorization: Bearer " ++ token)
    (h5 : lbody ≠ "Content-Type: application/json")
    (h6 : baseURL ++ "/login" ≠ "Content-Type: application/json")
    (h7 : verb ≠ "authorization: Bearer " ++ token) :
    (executeHTTPCommandArgs tempDir token [baseURL ++ resource ++ query]).take 2 =
        ["-o", joinPath tempDir responseTempFilename] ∧
    (executeHTTPCommandArgs tempDir token
        ["-X", "DELETE", baseURL ++ resource ++ query]).take 2 =
      ["-o", joinPath tempDir responseTempFilename] ∧
    (executeHTTPCommandArgs tempDir token ["-X", verb, "-H",
        "Content-Type: application/json", "-d", body, baseURL ++ resource]).take 2 =
      ["-o", joinPath tempDir responseTempFilename] ∧
    (executeHTTPCommandArgs tempDir ""
        ["-X", "POST", "-d", lbody, baseURL ++ "/login"]).take 2 =
      ["-o", joinPath tempDir responseTempFilename] ∧
    (("authorization: Bearer " ++ token) ∈
        executeHTTPCommandArgs tempDir token [baseURL ++ resource ++ query] ↔
      token ≠ "") ∧
    (("authorization: Bearer " ++ token) ∈
        executeHTTPCommandArgs tempDir token
          ["-X", "DELETE", baseURL ++ resource ++ query] ↔
      token ≠ "") ∧
    (("authorization: Bearer " ++ token) ∈
        executeHTTPCommandArgs tempDir token ["-X", verb, "-H",
          "Content-Type: application/json", "-d", body, baseURL ++ resource] ↔
      token ≠ "") ∧
    executeHTTPCommandArgs tempDir ""
        ["-X", "POST", "-d", lbody, baseURL ++ "/login"] =
      ["-o", joinPath tempDir responseTempFilename, "-X", "POST", "-d", lbody,
        baseURL ++ "/login"] ∧
    "Content-Type: application/json" ∈
      executeHTTPCommandArgs tempDir token ["-X", verb, "-H",
        "Content-Type: application/json", "-d", body, baseURL ++ resource] ∧
    "Content-Type: application/json" ∉
      executeHTTPCommandArgs tempDir token [baseURL ++ resource ++ query] ∧
    "Content-Type: application/json" ∉
      executeHTTPCommandArgs tempDir token
        ["-X", "DELETE", baseURL ++ resource ++ query] ∧
    ("-d" ∈ executeHTTPCommandArgs tempDir ""
        ["-X", "POST", "-d", lbody, baseURL ++ "/login"] ∧
      "Content-Type: application/json" ∉
        executeHTTPCommandArgs tempDir ""
          ["-X", "POST", "-d", lbody, baseURL ++ "/login"]) ∧
    (executeHTTPCommandArgs tempDir token [baseURL ++ resource ++ query]).getLast? =
      some (baseURL ++ resource ++ query) ∧
    (executeHTTPCommandArgs tempDir token
        ["-X", "DELETE", baseURL ++ resource ++ query]).getLast? =
      some (baseURL ++ resource ++ query) ∧
    (executeHTTPCommandArgs tempDir token ["-X", verb, "-H",
        "Content-Type: application/json", "-d", body,
        baseURL ++ resource]).getLast? = some (baseURL ++ resource) ∧
    (executeHTTPCommandArgs tempDir ""
        ["-X", "POST", "-d", lbody, baseURL ++ "/login"]).getLast? =
      some (baseURL ++ "/login") := by
  by_cases htok : token = ""
  · subst htok
    simp only [executeHTTPCommandArgs, ne_eq, not_true_eq_false, if_false,
      List.append_nil, List.nil_append, List.cons_append]
    refine ⟨by trivial, by trivial, by trivial, by trivial, ?_, ?_, ?_, by trivial, by simp, ?_, ?_,
      ⟨by simp, ?_⟩, by trivial, by trivial, by trivial, by trivial⟩
    · simp only [iff_false, List.mem_cons, List.not_mem_nil, or_false, not_or]
      exact ⟨authHeader_ne "" _ (by decide), fun hh => hp1 hh.symm,
        fun hh => h1 hh.symm⟩
    · simp only [iff_false, List.mem_cons, List.not_mem_nil, or_false, not_or]
      exact ⟨authHeader_ne "" _ (by decide), fun hh => hp1 hh.symm,
        authHeader_ne "" _ (by decide), authHeader_ne "" _ (by decide),
        fun hh => h1 hh.symm⟩
    · simp only [iff_false, List.mem_cons, List.not_mem_nil, or_false, not_or]
      exact ⟨authHeader_ne "" _ (by decide), fun hh => hp1 hh.symm,
        authHeader_ne "" _ (by decide), fun hh => h7 hh.symm,
        authHeader_ne "" _ (by decide), authHeader_ne "" _ (by decide),
        authHeader_ne "" _ (by decide), fun hh => h3 hh.symm,
        fun hh => h4 hh.symm⟩
    · simp only [List.mem_cons, List.not_mem_nil, or_false, not_or]
      exact ⟨by decide, fun hh => hp2 hh.symm, fun hh => h2 hh.symm⟩
    · simp only [List.mem_cons, List.not_mem_nil, or_false, not_or]
      exact ⟨by decide, fun hh => hp2 hh.symm, by decide, by decide,
        fun hh => h2 hh.symm⟩
    · simp only [List.mem_cons, List.not_mem_nil, or_false, not_or]
      exact ⟨by decide, fun hh => hp2 hh.symm, by decide, by decide, by decide,
        fun hh => h5 hh.symm, fun hh => h6 hh.symm⟩
  · simp only [executeHTTPCommandArgs, ne_eq, htok, not_false_eq_true, if_true,
      not_true_eq_false, if_false, List.append_nil, List.nil_append,
      List.cons_append]
    refine ⟨by trivial, by trivial, by trivial, by trivial, by simp, by simp, by simp, by trivial, by simp, ?_, ?_,
      ⟨by simp, ?_⟩, by trivial, by trivial, by trivial, by trivial⟩
    · simp only [List.mem_cons, List.not_mem_nil, or_false, not_or]
      refine ⟨by decide, fun hh => hp2 hh.symm, by decide, ?_,
        fun hh => h2 hh.symm⟩
      intro hh
      exact authHeader_ne token _ (by decide) hh.symm
    · simp only [List.mem_cons, List.not_mem_nil, or_false, not_or]
      refine ⟨by decide, fun hh => hp2 hh.symm, by decide, ?_, by decide,
        by decide, fun hh => h2 hh.symm⟩
      intro hh
      exact authHeader_ne token _ (by decide) hh.symm
    · simp only [List.mem_cons, List.not_mem_nil, or_false, not_or]
      exact ⟨by decide, fun hh => hp2 hh.symm, by decide, by decide, by decide,
        fun hh => h5 hh.symm, fun hh => h6 hh.symm⟩

/-- Witness for `claimC2_amended` at the specification's scenario:
base URL `https://api.example.com`, resource `/items`, empty query
string, token `abc`, and the login body for user `u`. -/
theorem claimC2_witness :
    joinPath "/tmp" responseTempFilename = "/tmp/gravity-api-response" ∧
    loginBody "u" "p" ≠ "Content-Type: application/json" ∧
    ((executeHTTPCommandArgs "/tmp" "abc"
        ["https://api.example.com" ++ "/items" ++ ""]).take 2 =
        ["-o", joinPath "/tmp" responseTempFilename] ∧
      (executeHTTPCommandArgs "/tmp" "abc"
          ["-X", "DELETE", "https://api.example.com" ++ "/items" ++ ""]).take 2 =
        ["-o", joinPath "/tmp" responseTempFilename] ∧
      (executeHTTPCommandArgs "/tmp" "abc" ["-X", "POST", "-H",
          "Content-Type: application/json", "-d", "\x7b\x7d",
          "https://api.example.com" ++ "/items"]).take 2 =
        ["-o", joinPath "/tmp" responseTempFilename] ∧
      (executeHTTPCommandArgs "/tmp" "" ["-X", "POST", "-d", loginBody "u" "p",
          "https://api.example.com" ++ "/login"]).take 2 =
        ["-o", joinPath "/tmp" responseTempFilename] ∧
      (("authorization: Bearer " ++ "abc") ∈
          executeHTTPCommandArgs "/tmp" "abc"
            ["https://api.example.com" ++ "/items" ++ ""] ↔
        ("abc" : String) ≠ "") ∧
      (("authorization: Bearer " ++ "abc") ∈
          executeHTTPCommandArgs "/tmp" "abc"
            ["-X", "DELETE", "https://api.example.com" ++ "/items" ++ ""] ↔
        ("abc" : String) ≠ "") ∧
      (("authorization: Bearer " ++ "abc") ∈
          executeHTTPCommandArgs "/tmp" "abc" ["-X", "POST", "-H",
            "Content-Type: application/json", "-d", "\x7b\x7d",
            "https://api.example.com" ++ "/items"] ↔
        ("abc" : String) ≠ "") ∧
      executeHTTPCommandArgs "/tmp" ""
          ["-X", "POST", "-d", loginBody "u" "p",
            "https://api.example.com" ++ "/login"] =
        ["-o", joinPath "/tmp" responseTempFilename, "-X", "POST", "-d",
          loginBody "u" "p", "https://api.example.com" ++ "/login"] ∧
      "Content-Type: application/json" ∈
        executeHTTPCommandArgs "/tmp" "abc" ["-X", "POST", "-H",
          "Content-Type: application/json", "-d", "\x7b\x7d",
          "https://api.example.com" ++ "/items"] ∧
      "Content-Type: application/json" ∉
        executeHTTPCommandArgs "/tmp" "abc"
          ["https://api.example.com" ++ "/items" ++ ""] ∧
      "Content-Type: application/json" ∉
        executeHTTPCommandArgs "/tmp" "abc"
          ["-X", "DELETE", "https://api.example.com" ++ "/items" ++ ""] ∧
      ("-d" ∈ executeHTTPCommandArgs "/tmp" ""
          ["-X", "POST", "-d", loginBody "u" "p",
            "https://api.example.com" ++ "/login"] ∧
        "Content-Type: application/json" ∉
          executeHTTPCommandArgs "/tmp" ""
            ["-X", "POST", "-d", loginBody "u" "p",
              "https://api.example.com" ++ "/login"]) ∧
      (executeHTTPCommandArgs "/tmp" "abc"
          ["https://api.example.com" ++ "/items" ++ ""]).getLast? =
        some ("https://api.example.com" ++ "/items" ++ "") ∧
      (executeHTTPCommandArgs "/tmp" "abc"
          ["-X", "DELETE", "https://api.example.com" ++ "/items" ++ ""]).getLast? =
        some ("https://api.example.com" ++ "/items" ++ "") ∧
      (executeHTTPCommandArgs "/tmp" "abc" ["-X", "POST", "-H",
          "Content-Type: application/json", "-d", "\x7b\x7d",
          "https://api.example.com" ++ "/items"]).getLast? =
        some ("https://api.example.com" ++ "/items") ∧
      (executeHTTPCommandArgs "/tmp" ""
          ["-X", "POST", "-d", loginBody "u" "p",
            "https://api.example.com" ++ "/login"]).getLast? =
        some ("https://api.example.com" ++ "/login")) :=
  ⟨by decide, by decide,
   claimC2_amended "/tmp" "https://api.example.com" "/items" "" "\x7b\x7d"
     (loginBody "u" "p") "POST" "abc" (by decide) (by decide) (by decide)
     (by decide) (by decide) (by decide) (by decide) (by decide) (by decide)⟩

/-- Claim C3, counterexample.  With a stored configuration that fails
validation (empty URL, so `NotConfigured`) and malformed inline data
`{`, the post command reports the `InvalidJSON` error, not the
validation error: `postCommand` (main.go:343–356) resolves the body via
`getData` before it calls `getValidatedConfiguration`. -/
theorem claimC3_counterexample :
    validateConfiguration ⟨"", ""⟩ = Except.error GError.notConfigured ∧
    ({ sampleEnv with storedConfig := some ⟨"", ""⟩ } : Env).isJSON "\x7b" = false ∧
    (bodyCommandRun "POST" { sampleEnv with storedConfig := some ⟨"", ""⟩ }
        "/r" "." "\x7b" "").err = some GError.invalidDataJSON := by
  refine ⟨rfl, by decide, by decide⟩

/-- Claim C3, amended: for the query-style commands (`get`, `delete`)
configuration validation does happen before query resolution, so an
invalid stored configuration is reported as `NotConfigured` or
`NotAuthenticated` whatever the parameter file contains; but for the
body-carrying commands (`post`, `put`, `patch`) body resolution
precedes validation, so malformed inline data is reported as
`InvalidJSON` even when the configuration is invalid. -/
theorem claimC3_amended :
    (∀ pre env resource selector fileFlag cfg home,
      env.homeDir = some home → env.storedConfig = some cfg → cfg.URL = "" →
      (queryCommandRun pre env resource selector fileFlag).err =
        some GError.notConfigured) ∧
    (∀ pre env resource selector fileFlag cfg home,
      env.homeDir = some home → env.storedConfig = some cfg →
      cfg.URL ≠ "" → cfg.Token = "" →
      (queryCommandRun pre env resource selector fileFlag).err =
        some GError.notAuthenticated) ∧
    (∀ verb env resource selector dataFlag,
      dataFlag ≠ "" → env.isJSON dataFlag = false →
      (bodyCommandRun verb env resource selector dataFlag "").err =
        some GError.invalidDataJSON) := by
  refine ⟨?_, ?_, ?_⟩
  · intro pre env resource selector fileFlag cfg home hhome hc hurl
    simp [queryCommandRun, getValidatedConfiguration, getConfigPath,
      validateConfiguration, hhome, hc, hurl]
  · intro pre env resource selector fileFlag cfg home hhome hc hurl htok
    simp [queryCommandRun, getValidatedConfiguration, getConfigPath,
      validateConfiguration, hhome, hc, hurl, htok]
  · intro verb env resource selector dataFlag hd hjson
    simp [bodyCommandRun, getData, hd, hjson]

/-- Witness for `claimC3_amended`: an unconfigured environment makes
`get` report `NotConfigured` whatever the parameter file, while `post`
with the malformed inline data `{` reports `InvalidJSON`. -/
theorem claimC3_witness :
    (queryCommandRun [] { sampleEnv with storedConfig := some ⟨"", ""⟩ }
        "/r" "." "bad.json").err = some GError.notConfigured ∧
    (bodyCommandRun "POST" { sampleEnv with storedConfig := some ⟨"", ""⟩ }
        "/r" "." "\x7b" "").err = some GError.invalidDataJSON :=
  ⟨claimC3_amended.1 [] _ "/r" "." "bad.json" ⟨"", ""⟩ "/home/user"
      rfl rfl rfl,
   claimC3_amended.2.2 "POST" _ "/r" "." "\x7b" (by decide) (by decide)⟩

/-- Claim C4, counterexample.  The claim says the HTTP facility's
captured output is printed only when a show-stat flag is set and the
selector buffer only when a show-response flag is set.  `main.go`
declares no such flags anywhere (the `get` command's flag surface,
main.go:92–106, is exactly `resource`, `selector`, `file`, plus the
global `verbose`): in an invocation with no flag asking for them, both
the captured report and the selector buffer are printed anyway. -/
theorem claimC4_counterexample :
    (queryCommandRun [] sampleEnv "/items" ".count" "").printed =
      ["HTTP/1.1 200 OK", "3"] := by decide

/-- Claim C4, amended: every request-issuing invocation that reaches
the printing steps prints both the HTTP facility's captured output and
the selector-evaluation buffer unconditionally; no show-stat or
show-response flag exists in the program. -/
theorem claimC4_amended (pre : List String) (verb : String) (env : Env)
    (resource selector : String) (cfg : Configuration) (home out1 out2 : String)
    (hhome : env.homeDir = some home)
    (hc : env.storedConfig = some cfg) (hu : cfg.URL ≠ "") (ht : cfg.Token ≠ "")
    (hx1 : env.httpExec (executeHTTPCommandArgs env.tempDir cfg.Token
      (pre ++ [cfg.URL ++ resource])) = some out1)
    (hx2 : env.httpExec (executeHTTPCommandArgs env.tempDir cfg.Token
      ["-X", verb, "-H", "Content-Type: application/json", "-d", "",
        cfg.URL ++ resource]) = some out2) :
    (queryCommandRun pre env resource selector "").printed =
      [out1, env.jqBuffer [selector]] ∧
    (bodyCommandRun verb env resource selector "" "").printed =
      [out2, env.jqBuffer [selector]] := by
  constructor
  · simp [queryCommandRun, getValidatedConfiguration, getConfigPath,
      validateConfiguration, executeHTTPCommand, executeJqCommand,
      hhome, hc, hu, ht, hx1]
  · simp [bodyCommandRun, getData, getValidatedConfiguration, getConfigPath,
      validateConfiguration, executeHTTPCommand, executeJqCommand,
      hhome, hc, hu, ht, hx2]

/-- Witness for `claimC4_amended` in the sample environment: both a
`get`-style and a `POST`-style invocation print the captured report and
the selector buffer. -/
theorem claimC4_witness :
    (queryCommandRun [] sampleEnv "/items" ".count" "").printed =
      ["HTTP/1.1 200 OK", sampleEnv.jqBuffer [".count"]] ∧
    (bodyCommandRun "POST" sampleEnv "/items" ".count" "" "").printed =
      ["HTTP/1.1 200 OK", sampleEnv.jqBuffer [".count"]] :=
  claimC4_amended [] "POST" sampleEnv "/items" ".count"
    ⟨"https://api.example.com", "abc"⟩ "/home/user" "HTTP/1.1 200 OK"
    "HTTP/1.1 200 OK" rfl rfl (by decide) (by decide) rfl rfl

/-- Claim C9: a login invocation that reaches the HTTP step fails with
`LoginFailed` exactly when the captured textual report does not contain
the substring `200 OK` (main.go:287), and on that failure no
configuration write occurs, so the stored configuration and its token
are left unchanged. -/
theorem claimC9 (env : Env) (username password home : String)
    (config : Configuration) (output : String)
    (hu : username ≠ "") (hp : password ≠ "")
    (hhome : env.homeDir = some home)
    (hc : env.storedConfig = some config)
    (hx : env.httpExec (executeHTTPCommandArgs env.tempDir ""
        ["-X", "POST", "-d", loginBody username password,
          config.URL ++ "/login"]) = some output) :
    ((loginCommandRun env username password).err = some GError.loginFailed ↔
      ¬ goContains output "200 OK") ∧
    (¬ goContains output "200 OK" →
      (loginCommandRun env username password).writes = []) := by
  by_cases hcont : goContains output "200 OK"
  · constructor
    · simp only [loginCommandRun, getConfigPath, executeHTTPCommand,
        executeJqCommand, getConfigurationBytes, hu, hp, hhome, hc, hx,
        hcont, if_neg, not_true_eq_false]
      cases hm : env.marshal (mergeConfiguration config.URL
          (stripQuotesLineFeeds (env.jqBuffer [".access_token"])) config) with
      | none => simp [hu, hp, hcont, hm]
      | some bytes => simp [hu, hp, hcont, hm]
    · intro hfalse
      exact absurd hcont hfalse
  · simp [loginCommandRun, getConfigPath, executeHTTPCommand,
      executeJqCommand, hu, hp, hhome, hc, hx, hcont]

/-- Witness for `claimC9` in the environment whose HTTP facility
reports `HTTP/1.1 403 Forbidden`: the login fails with `LoginFailed`
and performs no configuration write. -/
theorem claimC9_witness :
    ¬ goContains "HTTP/1.1 403 Forbidden" "200 OK" ∧
    (loginCommandRun envLoginFail "u" "p").err = some GError.loginFailed ∧
    (loginCommandRun envLoginFail "u" "p").writes = [] ∧
    (((loginCommandRun envLoginFail "u" "p").err = some GError.loginFailed ↔
        ¬ goContains "HTTP/1.1 403 Forbidden" "200 OK") ∧
      (¬ goContains "HTTP/1.1 403 Forbidden" "200 OK" →
        (loginCommandRun envLoginFail "u" "p").writes = [])) :=
  ⟨by decide, by decide, by decide,
   claimC9 envLoginFail "u" "p" "/home/user"
     ⟨"https://api.example.com", "abc"⟩ "HTTP/1.1 403 Forbidden"
     (by decide) (by decide) rfl rfl rfl⟩

/-- Claim C10: the selector-evaluation step never returns an error —
`executeJqCommand` (main.go:521) discards the results of
`Start`/`Wait` on both subprocesses and ends in
`return string(jqBuffer.Bytes()), nil` — so the `errJq` branches of the
command handlers are unreachable: a query-style or body-carrying
command that has printed anything (that is, whose HTTP step succeeded)
returns no error at all, and a login that has printed anything fails
only with `LoginFailed` (the `200 OK` check) or `SerialiseFailure`
(the later YAML step), never from the selector step; a failed selector
invocation just leaves an empty buffer that is printed as-is. -/
theorem claimC10 :
    (∀ env args, (executeJqCommand env args).2 = none) ∧
    (∀ pre env resource selector fileFlag,
      (queryCommandRun pre env resource selector fileFlag).err = none ∨
      (queryCommandRun pre env resource selector fileFlag).printed = []) ∧
    (∀ verb env resource selector dataFlag fileFlag,
      (bodyCommandRun verb env resource selector dataFlag fileFlag).err = none ∨
      (bodyCommandRun verb env resource selector dataFlag fileFlag).printed = []) ∧
    (∀ env username password,
      (loginCommandRun env username password).err = some GError.loginFailed ∨
      (loginCommandRun env username password).err = some GError.serialiseFailure ∨
      (loginCommandRun env username password).err = none ∨
      (loginCommandRun env username password).printed = []) := by
  refine ⟨fun env args => rfl, ?_, ?_, ?_⟩
  · intro pre env resource selector fileFlag
    simp only [queryCommandRun]
    cases hval : getValidatedConfiguration env with
    | error e => simp
    | ok config =>
      cases hq : (if fileFlag ≠ "" then getQueryStringFromJSONFile env fileFlag
          else Except.ok "") with
      | error e => simp [hq]
      | ok q =>
        cases hx : executeHTTPCommand env config.Token
            (pre ++ [config.URL ++ resource ++ q]) with
        | error e => simp [hq, hx]
        | ok out => simp [hq, hx, executeJqCommand]
  · intro verb env resource selector dataFlag fileFlag
    simp only [bodyCommandRun]
    by_cases hconf : dataFlag ≠ "" ∧ fileFlag ≠ ""
    · simp [hconf]
    · simp only [hconf, if_false]
      cases hd : getData env dataFlag fileFlag with
      | error e => simp [hd]
      | ok json =>
        cases hval : getValidatedConfiguration env with
        | error e => simp
        | ok config =>
          cases hx : executeHTTPCommand env config.Token
              ["-X", verb, "-H", "Content-Type: application/json", "-d", json,
                config.URL ++ resource] with
          | error e => simp [hx]
          | ok out => simp [hx, executeJqCommand]
  · intro env username password
    simp only [loginCommandRun]
    by_cases hu : username = ""
    · simp [hu]
    · by_cases hp : password = ""
      · simp [hu, hp]
      · simp only [hu, hp, if_false]
        cases hcp : getConfigPath env with
        | error e => simp
        | ok configPath =>
          cases hc : env.storedConfig with
          | none => simp
          | some config =>
            cases hx : executeHTTPCommand env ""
                ["-X", "POST", "-d", loginBody username password,
                  config.URL ++ "/login"] with
            | error e => simp [hx]
            | ok output =>
              by_cases hcont : goContains output "200 OK"
              · simp only [hcont, not_true_eq_false, if_false, executeJqCommand]
                cases hm : getConfigurationBytes env config.URL
                    (stripQuotesLineFeeds (env.jqBuffer [".access_token"]))
                    config with
                | error e =>
                  have he : e = GError.serialiseFailure := by
                    unfold getConfigurationBytes at hm
                    cases hmm : env.marshal (mergeConfiguration config.URL
                        (stripQuotesLineFeeds (env.jqBuffer [".access_token"]))
                        config) with
                    | none => rw [hmm] at hm; simp at hm; exact hm.symm
                    | some b => rw [hmm] at hm; simp at hm
                  subst he
                  simp [hx, hcont, hm]
                | ok bytes => simp [hx, hcont, hm]
              · simp [hx, hcont]
